import Mathlib

/-!
Shallow embedding of the bate-papo-uol chat API (`src/app.js`).

The store (two Mongo collections) is a pure state `DB` holding the
`participants` and `messages` collections as lists in insertion (natural)
order.  Each Express handler becomes a function from its request data and
the current clock values to an HTTP response together with the successor
store.  `Date.now()` is an `Int` parameter `nowMs`; the `dayjs` formatted
time `now()` is an opaque `String` parameter `t`.  Mongo operations are
modelled on lists: `findOne` is `List.find?`, `insertOne`/`insertMany`
append, `updateOne` rewrites the first match, `deleteMany` filters.

The two places where the code's behaviour under a failing store call is
specified (the join-message insert of `POST /participants`, and the
`deleteMany` of the reaper) take an explicit failure flag: the flag set
means that awaited call throws, and the surrounding `try`/`catch` then
determines the response/state, with every store write performed before the
throw still in place.
-/

set_option autoImplicit false

namespace App

/-- A document of the `participants` collection: `{ name, lastStatus }`. -/
structure Participant where
  name : String
  lastStatus : Int
deriving DecidableEq, Repr

/-- A document of the `messages` collection:
`{ from, to, text, type, time }`. -/
structure Message where
  «from» : String
  «to» : String
  text : String
  type : String
  time : String
deriving DecidableEq, Repr

/-- The store: the two collections, in natural (insertion) order. -/
structure DB where
  participants : List Participant
  messages : List Message
deriving DecidableEq, Repr

/-- Body of a response: `sendStatus` sends none, `send` sends a string, a
joi error list, or a collection query result. -/
inductive RespBody where
  | empty
  | text (s : String)
  | errs (es : List String)
  | msgList (ms : List Message)
  | userList (ps : List Participant)
deriving DecidableEq, Repr

/-- An HTTP response: status code and body. -/
structure HttpResp where
  status : Nat
  body : RespBody
deriving DecidableEq, Repr

/-- Request body of `POST /participants`: a JSON object with an optional
string field `name`. -/
structure NameBody where
  name : Option String
deriving DecidableEq, Repr

/-- Request body of `POST /messages`: optional string fields
`to`, `text`, `type`. -/
structure MsgBody where
  «to» : Option String
  text : Option String
  type : Option String
deriving DecidableEq, Repr

/-- joi `string().required()` on one field, with `abortEarly: false`:
missing and empty values each contribute their violation message. -/
def fieldErrs (fname : String) (v : Option String) : List String :=
  match v with
  | none => ["\"" ++ fname ++ "\" is required"]
  | some s => if s == "" then ["\"" ++ fname ++ "\" is not allowed to be empty"] else []

/-- joi `string().valid('message', 'private_message').required()` for the
`type` field. -/
def typeErrs (v : Option String) : List String :=
  match v with
  | none => ["\"type\" is required"]
  | some s =>
    if s == "" then ["\"type\" is not allowed to be empty"]
    else if s == "message" || s == "private_message" then []
    else ["\"type\" must be one of [message, private_message]"]

/-- `schemaName.validate(body, { abortEarly: false })`: the list of all
violation messages (empty list = validation passed). -/
def schemaNameValidate (b : NameBody) : List String :=
  fieldErrs "name" b.name

/-- `schemaMessage.validate(body, { abortEarly: false })`: all violation
messages across the three fields. -/
def schemaMessageValidate (b : MsgBody) : List String :=
  fieldErrs "to" b.«to» ++ fieldErrs "text" b.text ++ typeErrs b.type

/-- `db.collection("participants").findOne({ name: nm })`: first document
in natural order whose `name` equals `nm`. -/
def findOneByName (nm : String) (ps : List Participant) : Option Participant :=
  ps.find? (fun p => p.name == nm)

/-- The join message `{ from: name, to: 'Todos', text: 'entra na sala...',
type: 'status', time: now() }`. -/
def joinMessage (n : String) (t : String) : Message :=
  ⟨n, "Todos", "entra na sala...", "status", t⟩

/-- `POST /participants`.  `msgInsertFails` set means the awaited
`insertOne` of the join message throws; the `catch` then answers 500 with
the participant insert already performed. -/
def postParticipants (b : NameBody) (nowMs : Int) (t : String)
    (msgInsertFails : Bool) (db : DB) : HttpResp × DB :=
  let errors := schemaNameValidate b
  if errors.isEmpty then
    match b.name with
    | some n =>
      match findOneByName n db.participants with
      | some _ => (⟨409, .text "Nome de usuário indisponível"⟩, db)
      | none =>
        let user : Participant := ⟨n, nowMs⟩
        let message := joinMessage n t
        let db1 : DB := ⟨db.participants ++ [user], db.messages⟩
        if msgInsertFails then (⟨500, .text "insertOne failed"⟩, db1)
        else (⟨201, .empty⟩, ⟨db1.participants, db1.messages ++ [message]⟩)
    | none => (⟨422, .errs errors⟩, db)
  else (⟨422, .errs errors⟩, db)

/-- `GET /participants`. -/
def getParticipants (db : DB) : HttpResp :=
  ⟨200, .userList db.participants⟩

/-- `POST /messages`; `user` is the `user` request header. -/
def postMessage (b : MsgBody) (user : String) (t : String) (db : DB) :
    HttpResp × DB :=
  let errors := schemaMessageValidate b
  if errors.isEmpty then
    match b.«to», b.text, b.type with
    | some dest, some tx, some ty =>
      match findOneByName user db.participants with
      | none => (⟨422, .text "Remetente não encontrado"⟩, db)
      | some _ =>
        let message : Message := ⟨user, dest, tx, ty, t⟩
        (⟨201, .empty⟩, ⟨db.participants, db.messages ++ [message]⟩)
    | _, _, _ => (⟨422, .errs errors⟩, db)
  else (⟨422, .errs errors⟩, db)

/-- Result of the JavaScript numeric coercion `+s` on a query-parameter
string: `NaN`, an integer, or a non-integer number. -/
inductive JsNum where
  | nan
  | int (n : Int)
  | nonint
deriving DecidableEq, Repr

/-- JavaScript string whitespace, as far as this API receives it. -/
def isJsSpace (c : Char) : Bool :=
  c == ' ' || c == '\t' || c == '\n' || c == '\r'

/-- Strip leading and trailing whitespace. -/
def trimChars (l : List Char) : List Char :=
  ((l.dropWhile isJsSpace).reverse.dropWhile isJsSpace).reverse

/-- Split a character list at every `'.'`. -/
def splitDot : List Char → List (List Char)
  | [] => [[]]
  | c :: cs =>
    if c == '.' then [] :: splitDot cs
    else
      match splitDot cs with
      | h :: r => (c :: h) :: r
      | [] => [[c]]

/-- Value of a (possibly empty) run of decimal digits. -/
def digitsToNat (l : List Char) : Nat :=
  l.foldl (fun a c => a * 10 + (c.toNat - 48)) 0

/-- The coercion `+s`, modelled for plain decimal literals (optional
whitespace, optional sign, digits with an optional fraction part); the
exotic forms JavaScript additionally accepts (hex, exponent notation,
`Infinity`) are outside the inputs this model covers. -/
def jsToNumber (s : String) : JsNum :=
  let w := trimChars s.toList
  if w.isEmpty then .int 0
  else
    let sign : Int := if w.head? == some '-' then -1 else 1
    let rest := if w.head? == some '-' || w.head? == some '+' then w.drop 1 else w
    match splitDot rest with
    | [ip] =>
      if !ip.isEmpty && ip.all Char.isDigit then .int (sign * digitsToNat ip)
      else .nan
    | [ip, fp] =>
      if (!ip.isEmpty || !fp.isEmpty) && ip.all Char.isDigit && fp.all Char.isDigit then
        if fp.all (fun c => c == '0') then .int (sign * digitsToNat ip)
        else .nonint
      else .nan
    | _ => .nan

/-- The Mongo query
`{ $or: [{ to: user }, { to: "Todos" }, { from: user }] }`. -/
def visibleFor (user : String) (m : Message) : Bool :=
  m.«to» == user || m.«to» == "Todos" || m.«from» == user

/-- `messages.slice(-k)` for `k ≥ 1`: the last `k` elements (all of them
when fewer than `k` exist). -/
def jsSliceNeg {α : Type} (l : List α) (k : Nat) : List α :=
  l.drop (l.length - k)

/-- The 422 answer for a bad `limit`. -/
def badLimitResp : HttpResp :=
  ⟨422, .text "O parâmetro \x27limit\x27 deve ser um número inteiro maior ou igual a 1."⟩

/-- `GET /messages`; `limit` is the raw query parameter, `user` the
`user` header.  Read-only: the store is not changed. -/
def getMessages (limit : Option String) (user : String) (db : DB) : HttpResp :=
  match limit with
  | none => ⟨200, .msgList (db.messages.filter (visibleFor user))⟩
  | some l =>
    match jsToNumber l with
    | .int n =>
      if n < 1 then badLimitResp
      else ⟨200, .msgList (jsSliceNeg (db.messages.filter (visibleFor user)) n.toNat)⟩
    | _ => badLimitResp

/-- `updateOne({ name: user }, { $set: { lastStatus: nowMs } })`: rewrite
the `lastStatus` of the first document whose `name` matches. -/
def updateFirstStatus (user : String) (nowMs : Int) :
    List Participant → List Participant
  | [] => []
  | p :: ps =>
    if p.name == user then { p with lastStatus := nowMs } :: ps
    else p :: updateFirstStatus user nowMs ps

/-- `POST /status`; `user` is the `user` header. -/
def postStatus (user : String) (nowMs : Int) (db : DB) : HttpResp × DB :=
  match findOneByName user db.participants with
  | none => (⟨404, .empty⟩, db)
  | some _ =>
    (⟨200, .empty⟩, ⟨updateFirstStatus user nowMs db.participants, db.messages⟩)

/-- The departure message `{ from: name, to: 'Todos',
text: 'sai da sala...', type: 'status', time: now() }`. -/
def leaveMessage (n : String) (t : String) : Message :=
  ⟨n, "Todos", "sai da sala...", "status", t⟩

/-- The `try` block of `removeInactiveUsers`.  A thrown error carries the
store state at the throw point (external state mutated so far persists).
`deleteFails` set means the awaited `deleteMany` throws. -/
def sweepBody (deleteFails : Bool) (nowMs : Int) (t : String) (db : DB) :
    Except (String × DB) DB :=
  let threshold := nowMs - 10000
  let inactiveUsers := db.participants.filter (fun p => p.lastStatus ≤ threshold)
  let messagesToInsert := inactiveUsers.map (fun u => leaveMessage u.name t)
  let userNamesToDelete := inactiveUsers.map (fun u => u.name)
  let db1 : DB :=
    if messagesToInsert.length > 0 then ⟨db.participants, db.messages ++ messagesToInsert⟩
    else db
  if userNamesToDelete.length > 0 then
    if deleteFails then .error ("deleteMany failed", db1)
    else .ok ⟨db1.participants.filter (fun p => !(userNamesToDelete.contains p.name)), db1.messages⟩
  else .ok db1

/-- One reaper sweep: run the `try` block; the `catch` logs and swallows
any error, leaving the store as it was at the throw point. -/
def removeInactiveUsers (deleteFails : Bool) (nowMs : Int) (t : String)
    (db : DB) : DB :=
  match sweepBody deleteFails nowMs t db with
  | .ok db1 => db1
  | .error (_, db1) => db1

end App

namespace App

/-! ### Helper lemmas about the store primitives -/

theorem findOneByName_eq_none {nm : String} {ps : List Participant}
    (h : ∀ p ∈ ps, p.name ≠ nm) : findOneByName nm ps = none := by
  rw [findOneByName, List.find?_eq_none]
  intro p hp
  simpa using h p hp

theorem findOneByName_isSome {nm : String} {ps : List Participant}
    (h : ∃ p ∈ ps, p.name = nm) : ∃ q, findOneByName nm ps = some q := by
  obtain ⟨p, hp, hpn⟩ := h
  rcases hq : findOneByName nm ps with _ | q
  · rw [findOneByName, List.find?_eq_none] at hq
    exact absurd (by simpa using hpn) (by simpa using hq p hp)
  · exact ⟨q, rfl⟩

theorem schemaNameValidate_eq_nil {b : NameBody} {n : String}
    (hn : b.name = some n) (hne : n ≠ "") : schemaNameValidate b = [] := by
  simp [schemaNameValidate, fieldErrs, hn, hne]

theorem schemaMessageValidate_shape {b : MsgBody}
    (h : schemaMessageValidate b = []) :
    ∃ dest tx ty, b.«to» = some dest ∧ b.text = some tx ∧ b.type = some ty := by
  rcases b with ⟨d?, x?, y?⟩
  cases d? <;> cases x? <;> cases y? <;>
    simp_all [schemaMessageValidate, fieldErrs, typeErrs]

end App

namespace App

/-! ### Registration and message-posting claims -/

/-- Claim C4: a valid registration with a fresh name inserts the
participant `{name, lastStatus = now}`, inserts the broadcast status
message `"entra na sala..."` (from the name, to `"Todos"`, type
`"status"`, the current formatted time), and answers 201. -/
theorem register_fresh_201 (b : NameBody) (n : String) (nowMs : Int)
    (t : String) (db : DB)
    (hn : b.name = some n) (hne : n ≠ "")
    (hfresh : ∀ p ∈ db.participants, p.name ≠ n) :
    postParticipants b nowMs t false db =
      (⟨201, .empty⟩,
       ⟨db.participants ++ [⟨n, nowMs⟩],
        db.messages ++ [⟨n, "Todos", "entra na sala...", "status", t⟩]⟩) := by
  have hv := schemaNameValidate_eq_nil hn hne
  have hf := findOneByName_eq_none hfresh
  simp [postParticipants, hv, hn, hf, joinMessage]

/-- Witness for C4 at a concrete fresh registration. -/
theorem register_fresh_201_witness :
    postParticipants ⟨some "ana"⟩ 100 "09:00:00" false ⟨[⟨"bob", 1⟩], []⟩ =
      (⟨201, .empty⟩,
       ⟨[⟨"bob", 1⟩, ⟨"ana", 100⟩],
        [⟨"ana", "Todos", "entra na sala...", "status", "09:00:00"⟩]⟩) :=
  register_fresh_201 ⟨some "ana"⟩ "ana" 100 "09:00:00" ⟨[⟨"bob", 1⟩], []⟩
    rfl (by decide) (by decide)

/-- Claim C3: registering a name that already belongs to a participant
answers 409, changes nothing in the store, and the store still holds
exactly one participant with that name. -/
theorem register_duplicate_409 (b : NameBody) (n : String) (nowMs : Int)
    (t : String) (f : Bool) (db : DB)
    (hn : b.name = some n) (hne : n ≠ "")
    (hmem : ∃ p ∈ db.participants, p.name = n)
    (hnd : (db.participants.map Participant.name).Nodup) :
    postParticipants b nowMs t f db =
      (⟨409, .text "Nome de usuário indisponível"⟩, db) ∧
    ((postParticipants b nowMs t f db).2.participants.map Participant.name).count n = 1 := by
  have hv := schemaNameValidate_eq_nil hn hne
  obtain ⟨q, hq⟩ := findOneByName_isSome hmem
  have h1 : postParticipants b nowMs t f db =
      (⟨409, .text "Nome de usuário indisponível"⟩, db) := by
    simp [postParticipants, hv, hn, hq]
  refine ⟨h1, ?_⟩
  rw [h1]
  obtain ⟨p, hp, hpn⟩ := hmem
  exact List.count_eq_one_of_mem hnd (hpn ▸ List.mem_map_of_mem Participant.name hp)

/-- Witness for C3 at a concrete duplicate registration. -/
theorem register_duplicate_409_witness :
    postParticipants ⟨some "ana"⟩ 100 "09:00:00" false ⟨[⟨"ana", 1⟩], []⟩ =
      (⟨409, .text "Nome de usuário indisponível"⟩, ⟨[⟨"ana", 1⟩], []⟩) :=
  (register_duplicate_409 ⟨some "ana"⟩ "ana" 100 "09:00:00" false
    ⟨[⟨"ana", 1⟩], []⟩ rfl (by decide) ⟨⟨"ana", 1⟩, by decide, rfl⟩ (by decide)).1

/-- Claim C8: an invalid payload to `POST /participants` or to
`POST /messages` is answered 422 carrying the full (non-empty) list of
validation violations, and the store is unchanged. -/
theorem invalid_payload_422 :
    (∀ (b : NameBody) (nowMs : Int) (t : String) (f : Bool) (db : DB),
       schemaNameValidate b ≠ [] →
       postParticipants b nowMs t f db = (⟨422, .errs (schemaNameValidate b)⟩, db)) ∧
    (∀ (b : MsgBody) (user t : String) (db : DB),
       schemaMessageValidate b ≠ [] →
       postMessage b user t db = (⟨422, .errs (schemaMessageValidate b)⟩, db)) := by
  constructor
  · intro b nowMs t f db h
    have : (schemaNameValidate b).isEmpty = false := by
      simpa [List.isEmpty_iff] using h
    simp [postParticipants, this]
  · intro b user t db h
    have : (schemaMessageValidate b).isEmpty = false := by
      simpa [List.isEmpty_iff] using h
    simp [postMessage, this]

/-- Witness for C8: a message body missing `to` and `text` and carrying a
bad `type` is refused with all three violations at once. -/
theorem invalid_payload_422_witness :
    schemaMessageValidate ⟨none, none, some "x"⟩ ≠ [] ∧
    2 ≤ (schemaMessageValidate ⟨none, none, some "x"⟩).length ∧
    postMessage ⟨none, none, some "x"⟩ "ana" "09:00:00" ⟨[], []⟩ =
      (⟨422, .errs (schemaMessageValidate ⟨none, none, some "x"⟩)⟩, ⟨[], []⟩) :=
  ⟨by decide, by decide,
   invalid_payload_422.2 ⟨none, none, some "x"⟩ "ana" "09:00:00" ⟨[], []⟩ (by decide)⟩

/-- Claim C9: a valid message payload whose sender (the `user` header)
matches no registered participant is answered 422 and no message is
inserted. -/
theorem message_unknown_sender_422 (b : MsgBody) (user t : String) (db : DB)
    (hv : schemaMessageValidate b = [])
    (hu : ∀ p ∈ db.participants, p.name ≠ user) :
    postMessage b user t db = (⟨422, .text "Remetente não encontrado"⟩, db) := by
  obtain ⟨dest, tx, ty, hd, hx, hy⟩ := schemaMessageValidate_shape hv
  have hf := findOneByName_eq_none hu
  simp [postMessage, hv, hd, hx, hy, hf]

/-- Witness for C9 at a concrete unregistered sender. -/
theorem message_unknown_sender_422_witness :
    postMessage ⟨some "bob", some "oi", some "message"⟩ "zed" "09:00:00"
        ⟨[⟨"ana", 1⟩], []⟩ =
      (⟨422, .text "Remetente não encontrado"⟩, ⟨[⟨"ana", 1⟩], []⟩) :=
  message_unknown_sender_422 ⟨some "bob", some "oi", some "message"⟩ "zed"
    "09:00:00" ⟨[⟨"ana", 1⟩], []⟩ (by decide) (by decide)

/-- Claim C10: registration is not atomic: when the join-message insert
fails, the handler answers 500 while the freshly inserted participant
stays in the store and no message was recorded. -/
theorem register_partial_failure_500 (b : NameBody) (n : String)
    (nowMs : Int) (t : String) (db : DB)
    (hn : b.name = some n) (hne : n ≠ "")
    (hfresh : ∀ p ∈ db.participants, p.name ≠ n) :
    (postParticipants b nowMs t true db).1.status = 500 ∧
    (postParticipants b nowMs t true db).2 =
      ⟨db.participants ++ [⟨n, nowMs⟩], db.messages⟩ := by
  have hv := schemaNameValidate_eq_nil hn hne
  have hf := findOneByName_eq_none hfresh
  simp [postParticipants, hv, hn, hf]

/-- Witness for C10 at a concrete failing registration. -/
theorem register_partial_failure_500_witness :
    (postParticipants ⟨some "ana"⟩ 100 "09:00:00" true ⟨[], []⟩).1.status = 500 ∧
    (postParticipants ⟨some "ana"⟩ 100 "09:00:00" true ⟨[], []⟩).2 =
      ⟨[⟨"ana", 100⟩], []⟩ :=
  register_partial_failure_500 ⟨some "ana"⟩ "ana" 100 "09:00:00" ⟨[], []⟩
    rfl (by decide) (by decide)

end App

namespace App

/-! ### Heartbeat -/

theorem updateFirstStatus_forall₂ (u : String) (nowMs : Int)
    (l : List Participant) :
    List.Forall₂
      (fun q p => q.name = p.name ∧
        (q = p ∨ (p.name = u ∧ q = { p with lastStatus := nowMs })))
      (updateFirstStatus u nowMs l) l := by
  induction l with
  | nil => simp [updateFirstStatus]
  | cons p ps ih =>
    by_cases h : p.name = u
    · rw [updateFirstStatus, if_pos (by simpa using h)]
      exact List.Forall₂.cons ⟨rfl, Or.inr ⟨h, rfl⟩⟩
        ((List.forall₂_same).mpr (fun x _ => ⟨rfl, Or.inl rfl⟩))
    · rw [updateFirstStatus, if_neg (by simpa using h)]
      exact List.Forall₂.cons ⟨rfl, Or.inl rfl⟩ ih

theorem updateFirstStatus_mem_updated (u : String) (nowMs : Int)
    (l : List Participant) (h : ∃ p ∈ l, p.name = u) :
    ∃ q ∈ updateFirstStatus u nowMs l, q.name = u ∧ q.lastStatus = nowMs := by
  induction l with
  | nil => simp at h
  | cons p ps ih =>
    by_cases hp : p.name = u
    · refine ⟨{ p with lastStatus := nowMs }, ?_, hp, rfl⟩
      rw [updateFirstStatus, if_pos (by simpa using hp)]
      exact List.mem_cons_self _ _
    · obtain ⟨r, hr, hrn⟩ := h
      rcases List.mem_cons.mp hr with rfl | hr'
      · exact absurd hrn hp
      · obtain ⟨q, hq, hqp⟩ := ih ⟨r, hr', hrn⟩
        refine ⟨q, ?_, hqp⟩
        rw [updateFirstStatus, if_neg (by simpa using hp)]
        exact List.mem_cons_of_mem _ hq

theorem updateFirstStatus_map_name (u : String) (nowMs : Int)
    (l : List Participant) :
    (updateFirstStatus u nowMs l).map Participant.name = l.map Participant.name := by
  induction l with
  | nil => simp [updateFirstStatus]
  | cons p ps ih =>
    by_cases h : p.name = u
    · rw [updateFirstStatus, if_pos (by simpa using h)]
      simp
    · rw [updateFirstStatus, if_neg (by simpa using h)]
      simpa using ih

/-- Claim C7: the only mutation `POST /status` ever performs is setting
the addressed existing participant's `lastStatus` to now (answering 200):
messages are untouched and every store participant is either unchanged or
is the addressed one with only `lastStatus` rewritten; on an unknown user
it answers 404 and creates nothing. -/
theorem heartbeat_frame (user : String) (nowMs : Int) (db : DB) :
    ((∀ p ∈ db.participants, p.name ≠ user) →
      postStatus user nowMs db = (⟨404, .empty⟩, db)) ∧
    ((∃ p ∈ db.participants, p.name = user) →
      (postStatus user nowMs db).1 = ⟨200, .empty⟩ ∧
      (postStatus user nowMs db).2.messages = db.messages ∧
      List.Forall₂
        (fun q p => q.name = p.name ∧
          (q = p ∨ (p.name = user ∧ q = { p with lastStatus := nowMs })))
        (postStatus user nowMs db).2.participants db.participants ∧
      (∃ q ∈ (postStatus user nowMs db).2.participants,
        q.name = user ∧ q.lastStatus = nowMs)) := by
  constructor
  · intro h
    simp [postStatus, findOneByName_eq_none h]
  · intro h
    obtain ⟨q, hq⟩ := findOneByName_isSome h
    refine ⟨by simp [postStatus, hq], by simp [postStatus, hq], ?_, ?_⟩
    · have := updateFirstStatus_forall₂ user nowMs db.participants
      simpa [postStatus, hq] using this
    · have := updateFirstStatus_mem_updated user nowMs db.participants h
      simpa [postStatus, hq] using this

/-- Witness for C7 at a concrete known and unknown user. -/
theorem heartbeat_frame_witness :
    postStatus "zed" 7 ⟨[⟨"ana", 1⟩], []⟩ = (⟨404, .empty⟩, ⟨[⟨"ana", 1⟩], []⟩) ∧
    (postStatus "ana" 7 ⟨[⟨"ana", 1⟩], []⟩).1 = ⟨200, .empty⟩ :=
  ⟨(heartbeat_frame "zed" 7 ⟨[⟨"ana", 1⟩], []⟩).1 (by decide),
   ((heartbeat_frame "ana" 7 ⟨[⟨"ana", 1⟩], []⟩).2 ⟨⟨"ana", 1⟩, by decide, rfl⟩).1⟩

end App

namespace App

/-! ### Listing messages -/

/-- The spec's validity condition on the `limit` query parameter: it
denotes a positive integer. -/
def positiveIntegerLimit (s : String) : Prop :=
  ∃ n : Int, jsToNumber s = .int n ∧ 1 ≤ n

/-- Claim C5: a successful `GET /messages` returns exactly the stored
messages with `to = reader`, `to = "Todos"` or `from = reader`, in store
order; with a valid `limit` it returns exactly the last `limit` entries
of that filtered list (a suffix, hence in the original order), or all of
them when fewer exist. -/
theorem list_messages_filter_limit (user : String) (db : DB) :
    getMessages none user db =
      ⟨200, .msgList (db.messages.filter (visibleFor user))⟩ ∧
    (∀ (s : String) (n : Int), jsToNumber s = .int n → 1 ≤ n →
      getMessages (some s) user db =
        ⟨200, .msgList (jsSliceNeg (db.messages.filter (visibleFor user)) n.toNat)⟩ ∧
      (∃ pre, db.messages.filter (visibleFor user) =
        pre ++ jsSliceNeg (db.messages.filter (visibleFor user)) n.toNat) ∧
      (jsSliceNeg (db.messages.filter (visibleFor user)) n.toNat).length =
        min n.toNat (db.messages.filter (visibleFor user)).length) := by
  refine ⟨rfl, fun s n hs hn => ?_⟩
  refine ⟨by simp [getMessages, hs, show ¬ n < 1 by omega], ?_, ?_⟩
  · exact ⟨_, (List.take_append_drop _ _).symm⟩
  · rw [jsSliceNeg, List.length_drop]
    omega

/-- Witness for C5: a reader with four visible messages out of five and
`limit=2` gets exactly the last two visible ones, in order. -/
theorem list_messages_filter_limit_witness :
    getMessages (some "2") "ana"
        ⟨[], [⟨"bob", "ana", "m1", "private_message", "t1"⟩,
              ⟨"bob", "Todos", "m2", "message", "t2"⟩,
              ⟨"ana", "cid", "m3", "private_message", "t3"⟩,
              ⟨"cid", "dan", "m4", "private_message", "t4"⟩,
              ⟨"cid", "ana", "m5", "private_message", "t5"⟩]⟩ =
      ⟨200, .msgList [⟨"ana", "cid", "m3", "private_message", "t3"⟩,
                      ⟨"cid", "ana", "m5", "private_message", "t5"⟩]⟩ :=
  ((list_messages_filter_limit "ana"
      ⟨[], [⟨"bob", "ana", "m1", "private_message", "t1"⟩,
            ⟨"bob", "Todos", "m2", "message", "t2"⟩,
            ⟨"ana", "cid", "m3", "private_message", "t3"⟩,
            ⟨"cid", "dan", "m4", "private_message", "t4"⟩,
            ⟨"cid", "ana", "m5", "private_message", "t5"⟩]⟩).2
    "2" 2 (by decide) (by decide)).1.trans (by decide)

/-- Claim C6: `GET /messages` answers 422 exactly when the `limit`
parameter is present and does not denote a positive integer, and a 422
answer never carries a message list. -/
theorem list_messages_limit_422_iff (limit : Option String) (user : String)
    (db : DB) :
    ((getMessages limit user db).status = 422 ↔
      ∃ s, limit = some s ∧ ¬ positiveIntegerLimit s) ∧
    ((getMessages limit user db).status = 422 →
      ∀ ms, (getMessages limit user db).body ≠ .msgList ms) := by
  rcases limit with _ | s
  · exact ⟨by simp [getMessages], by simp [getMessages]⟩
  · rcases hj : jsToNumber s with _ | n | _
    · refine ⟨⟨fun _ => ⟨s, rfl, ?_⟩, fun _ => by simp [getMessages, hj, badLimitResp]⟩,
        fun _ ms => by simp [getMessages, hj, badLimitResp]⟩
      rintro ⟨n, hn, -⟩
      rw [hj] at hn
      cases hn
    · by_cases hlt : n < 1
      · refine ⟨⟨fun _ => ⟨s, rfl, ?_⟩,
          fun _ => by simp [getMessages, hj, hlt, badLimitResp]⟩,
          fun _ ms => by simp [getMessages, hj, hlt, badLimitResp]⟩
        rintro ⟨m, hm, hm1⟩
        rw [hj] at hm
        cases hm
        omega
      · constructor
        · simp only [getMessages, hj, if_neg hlt]
          constructor
          · intro h
            cases h
          · rintro ⟨s', hs', hbad⟩
            cases hs'
            exact absurd ⟨n, hj, by omega⟩ hbad
        · intro h
          rw [getMessages] at h
          simp [hj, hlt] at h
    · refine ⟨⟨fun _ => ⟨s, rfl, ?_⟩, fun _ => by simp [getMessages, hj, badLimitResp]⟩,
        fun _ ms => by simp [getMessages, hj, badLimitResp]⟩
      rintro ⟨n, hn, -⟩
      rw [hj] at hn
      cases hn

/-- Witness for C6: `limit=abc` yields 422. -/
theorem list_messages_limit_422_iff_witness :
    (getMessages (some "abc") "ana" ⟨[], []⟩).status = 422 :=
  (list_messages_limit_422_iff (some "abc") "ana" ⟨[], []⟩).1.mpr
    ⟨"abc", rfl, by rintro ⟨n, hn, -⟩; rw [show jsToNumber "abc" = .nan by decide] at hn; cases hn⟩

end App

namespace App

/-! ### The reaper -/

theorem stale_filter_pos {nowMs : Int} {db : DB}
    (hL : db.participants.filter (fun p => p.lastStatus ≤ nowMs - 10000) ≠ []) :
    0 < (db.participants.filter (fun p => p.lastStatus ≤ nowMs - 10000)).length :=
  List.length_pos.mpr hL

theorem sweep_messages (fail : Bool) (nowMs : Int) (t : String) (db : DB) :
    (removeInactiveUsers fail nowMs t db).messages =
      db.messages ++
        (db.participants.filter (fun p => p.lastStatus ≤ nowMs - 10000)).map
          (fun u => leaveMessage u.name t) := by
  by_cases hL : db.participants.filter (fun p => p.lastStatus ≤ nowMs - 10000) = []
  · simp [removeInactiveUsers, sweepBody, hL]
  · have hpos := stale_filter_pos hL
    cases fail <;> simp [removeInactiveUsers, sweepBody, hpos]

theorem sweep_fail_participants (nowMs : Int) (t : String) (db : DB) :
    (removeInactiveUsers true nowMs t db).participants = db.participants := by
  by_cases hL : db.participants.filter (fun p => p.lastStatus ≤ nowMs - 10000) = []
  · simp [removeInactiveUsers, sweepBody, hL]
  · have hpos := stale_filter_pos hL
    simp [removeInactiveUsers, sweepBody, hpos]

theorem sweep_fail_error (nowMs : Int) (t : String) (db : DB)
    (h : ∃ p ∈ db.participants, p.lastStatus ≤ nowMs - 10000) :
    ∃ e, sweepBody true nowMs t db = .error e := by
  obtain ⟨p, hp, hps⟩ := h
  have hL : db.participants.filter (fun p => p.lastStatus ≤ nowMs - 10000) ≠ [] := by
    intro hnil
    exact absurd (decide_eq_true hps)
      (by simpa using (List.filter_eq_nil_iff.mp hnil) p hp)
  have hpos := stale_filter_pos hL
  refine ⟨("deleteMany failed",
    ⟨db.participants,
     db.messages ++
       (db.participants.filter (fun p => p.lastStatus ≤ nowMs - 10000)).map
         (fun u => leaveMessage u.name t)⟩), ?_⟩
  simp [sweepBody, hpos]

theorem sweep_ok_participants (nowMs : Int) (t : String) (db : DB)
    (hnd : (db.participants.map Participant.name).Nodup) :
    (removeInactiveUsers false nowMs t db).participants =
      db.participants.filter (fun p => nowMs - 10000 < p.lastStatus) := by
  by_cases hL : db.participants.filter (fun p => p.lastStatus ≤ nowMs - 10000) = []
  · have hall := List.filter_eq_nil_iff.mp hL
    have hself : (removeInactiveUsers false nowMs t db).participants = db.participants := by
      simp [removeInactiveUsers, sweepBody, hL]
    rw [hself]
    refine (List.filter_eq_self.mpr ?_).symm
    intro p hp
    have := hall p hp
    simp only [decide_eq_true_eq] at this ⊢
    omega
  · have hpos := stale_filter_pos hL
    have hred : (removeInactiveUsers false nowMs t db).participants =
        db.participants.filter (fun p =>
          !(((db.participants.filter (fun q => q.lastStatus ≤ nowMs - 10000)).map
              (fun u => u.name)).contains p.name)) := by
      simp [removeInactiveUsers, sweepBody, hpos]
    rw [hred]
    refine List.filter_congr ?_
    intro p hp
    have hmem : p.name ∈ (db.participants.filter
        (fun q => q.lastStatus ≤ nowMs - 10000)).map (fun u => u.name) ↔
        p.lastStatus ≤ nowMs - 10000 := by
      constructor
      · intro hm
        obtain ⟨q, hq, hqn⟩ := List.mem_map.mp hm
        obtain ⟨hqmem, hqs⟩ := List.mem_filter.mp hq
        have hqe : q = p := List.inj_on_of_nodup_map hnd hqmem hp hqn
        subst hqe
        exact of_decide_eq_true hqs
      · intro hs
        exact List.mem_map.mpr ⟨p, List.mem_filter.mpr ⟨hp, decide_eq_true hs⟩, rfl⟩
    by_cases hst : p.lastStatus ≤ nowMs - 10000
    · have hc : ((db.participants.filter (fun q => q.lastStatus ≤ nowMs - 10000)).map
          (fun u => u.name)).contains p.name = true := by
        simpa using hmem.mpr hst
      rw [hc]
      exact (decide_eq_false (by omega)).symm
    · have hc : ((db.participants.filter (fun q => q.lastStatus ≤ nowMs - 10000)).map
          (fun u => u.name)).contains p.name = false := by
        simpa using fun hm => hst (hmem.mp hm)
      rw [hc]
      exact (decide_eq_true (by omega)).symm

end App

namespace App

/-- Claim C1: a sweep removes exactly the participants with
`lastStatus ≤ now − 10000`, appends one broadcast status message
`"sai da sala..."` (from the removed name, to `"Todos"`, type `"status"`)
per removed participant, and a participant whose `lastStatus` a heartbeat
set inside the 10-unit window survives the sweep. -/
theorem reaper_sweep_exact (nowMs : Int) (t : String) (db : DB)
    (hnd : (db.participants.map Participant.name).Nodup) :
    (removeInactiveUsers false nowMs t db).participants =
      db.participants.filter (fun p => nowMs - 10000 < p.lastStatus) ∧
    (removeInactiveUsers false nowMs t db).messages =
      db.messages ++
        (db.participants.filter (fun p => p.lastStatus ≤ nowMs - 10000)).map
          (fun u => (⟨u.name, "Todos", "sai da sala...", "status", t⟩ : Message)) ∧
    (∀ (u : String) (hb : Int) (db0 : DB),
      (db0.participants.map Participant.name).Nodup →
      nowMs - 10000 < hb →
      (∃ p ∈ db0.participants, p.name = u) →
      ∃ q ∈ (removeInactiveUsers false nowMs t (postStatus u hb db0).2).participants,
        q.name = u) := by
  refine ⟨sweep_ok_participants nowMs t db hnd, sweep_messages false nowMs t db, ?_⟩
  intro u hb db0 hnd0 hhb hmem
  obtain ⟨q0, hq0⟩ := findOneByName_isSome hmem
  have hps : (postStatus u hb db0).2.participants =
      updateFirstStatus u hb db0.participants := by
    simp [postStatus, hq0]
  have hms : (postStatus u hb db0).2.messages = db0.messages := by
    simp [postStatus, hq0]
  have hnd1 : ((postStatus u hb db0).2.participants.map Participant.name).Nodup := by
    rw [hps, updateFirstStatus_map_name]
    exact hnd0
  obtain ⟨q, hqmem, hqn, hql⟩ :=
    updateFirstStatus_mem_updated u hb db0.participants hmem
  refine ⟨q, ?_, hqn⟩
  rw [sweep_ok_participants nowMs t _ hnd1, List.mem_filter]
  exact ⟨hps ▸ hqmem, decide_eq_true (by omega)⟩

/-- Witness for C1: of two participants, the stale one is removed with a
departure message and the fresh one survives. -/
theorem reaper_sweep_exact_witness :
    (removeInactiveUsers false 20000 "09:00:00"
        ⟨[⟨"old", 9999⟩, ⟨"new", 15000⟩], []⟩).participants = [⟨"new", 15000⟩] ∧
    (removeInactiveUsers false 20000 "09:00:00"
        ⟨[⟨"old", 9999⟩, ⟨"new", 15000⟩], []⟩).messages =
      [⟨"old", "Todos", "sai da sala...", "status", "09:00:00"⟩] := by
  have h := reaper_sweep_exact 20000 "09:00:00"
    ⟨[⟨"old", 9999⟩, ⟨"new", 15000⟩], []⟩ (by decide)
  exact ⟨h.1.trans (by decide), h.2.1.trans (by decide)⟩

/-- Claim C2: with participants to reap, a failing batch delete still
leaves the departure messages recorded (the batch insert precedes the
delete), the participants are left in place, and the raised error is
swallowed: the sweep's `try` block errors, yet the sweep itself returns
normally with the state at the failure point. -/
theorem reaper_insert_before_delete (nowMs : Int) (t : String) (db : DB)
    (h : ∃ p ∈ db.participants, p.lastStatus ≤ nowMs - 10000) :
    (∃ e, sweepBody true nowMs t db = .error e) ∧
    (removeInactiveUsers true nowMs t db).messages =
      db.messages ++
        (db.participants.filter (fun p => p.lastStatus ≤ nowMs - 10000)).map
          (fun u => (⟨u.name, "Todos", "sai da sala...", "status", t⟩ : Message)) ∧
    (removeInactiveUsers true nowMs t db).participants = db.participants :=
  ⟨sweep_fail_error nowMs t db h, sweep_messages true nowMs t db,
   sweep_fail_participants nowMs t db⟩

/-- Witness for C2: one stale participant, failing delete: the departure
message is recorded and the participant survives until the next cycle. -/
theorem reaper_insert_before_delete_witness :
    (removeInactiveUsers true 20000 "09:00:00" ⟨[⟨"old", 9999⟩], []⟩).messages =
      [⟨"old", "Todos", "sai da sala...", "status", "09:00:00"⟩] ∧
    (removeInactiveUsers true 20000 "09:00:00" ⟨[⟨"old", 9999⟩], []⟩).participants =
      [⟨"old", 9999⟩] := by
  have h := reaper_insert_before_delete 20000 "09:00:00" ⟨[⟨"old", 9999⟩], []⟩
    ⟨⟨"old", 9999⟩, by decide, by decide⟩
  exact ⟨h.2.1.trans (by decide), h.2.2⟩

end App
